import Mathlib

/-!
# MangaRock crawler: response normalisation

A shallow embedding of `src/index.js` (class `MangaRockCrawler`).

Modelling conventions.

* An HTTP exchange (`requestp`) is a parameter: every operation receives the parsed JSON
  response it would have obtained.  A thrown `Error` is `Except.error`.
* A JSON field that may be `undefined` is an `Option`.
* A JavaScript `Date` is its time value in milliseconds since the epoch; `none` is
  `Invalid Date`, and every comparison with it is false.  A `Date` built from a number
  outside the range of time values is `Invalid Date`.
* Timestamps and status codes are integers.  Numbers that are only compared (the clock
  reading, the `order` of a chapter, a parsed chapter number) are rationals.
* The module `./utils` is outside the embedded source; its functions `trimSpaces` and
  `parseChapterNumber` are parameters (the structure `Utils`), taken to return without
  throwing.
-/

namespace MangaRock

/-! ## Data model -/

/-- A string-valued JSON field; `none` is `undefined`. -/
abbrev JsStr := Option String

/-- Time value of a JavaScript `Date` in milliseconds; `none` is `Invalid Date`. -/
abbrev JsDate := Option Int

/-- Relational `a < b` on two `Date` objects: false as soon as one side is invalid. -/
def dateLt : JsDate → JsDate → Bool
  | some x, some y => decide (x < y)
  | _, _ => false

/-- Relational `a >= b` on two `Date` objects: false as soon as one side is invalid. -/
def dateGe : JsDate → JsDate → Bool
  | some x, some y => decide (y ≤ x)
  | _, _ => false

/-- Template-literal interpolation of a possibly undefined string. -/
def interp : JsStr → String
  | some s => s
  | none => "undefined"

/-- The two helpers of `./utils` used by the crawler. -/
structure Utils where
  trimSpaces : JsStr → JsStr
  parseChapterNumber : JsStr → JsStr → ℚ

/-- A parsed JSON response: `code` and the optional `data` member. -/
structure Response (α : Type) where
  code : Int
  data : Option α

def mangaPageUrl : String := "https://mangarock.com/manga"

/-! ## `getReleases` -/

/-- An element of `new_chapters` in the release feed; `updatedAt` is the value of
`new Date(chap.updatedAt)`. -/
structure FeedChapter where
  oid : String
  name : JsStr
  updatedAt : JsDate

/-- An element of the release feed; `updated_at` is the value of `new Date(data.updated_at)`. -/
structure FeedEntry where
  oid : String
  name : JsStr
  thumbnail : JsStr
  rank : Option Int
  completed : Option Bool
  new_chapters : Option (List FeedChapter)
  updated_at : JsDate

/-- An element of `updatedChapters` in the result of `getReleases`. -/
structure UpdatedChapter where
  sourceId : String
  name : JsStr
  url : String
  updatedAt : JsDate
  deriving DecidableEq

/-- An element of the result of `getReleases`. -/
structure ReleasedManga where
  sourceId : String
  name : JsStr
  url : String
  thumbnail : JsStr
  rank : Option Int
  updatedChapters : List UpdatedChapter
  updatedChaptersCount : Nat
  updatedAt : JsDate
  completed : Option Bool
  deriving DecidableEq

/-- The argument `from` of `getReleases`: falsy, a `Date`, or a truthy value that is not
a `Date`. -/
inductive FromArg where
  | absent
  | date (d : JsDate)
  | notDate

/-- The callback of `data.new_chapters.map` (lines 185-192). -/
def feedChapter (u : Utils) (data : FeedEntry) (chap : FeedChapter) : UpdatedChapter :=
  { sourceId := chap.oid
    name := u.trimSpaces chap.name
    url := mangaPageUrl ++ "/" ++ data.oid ++ "/chapter/" ++ chap.oid
    updatedAt := chap.updatedAt }

/-- Lines 183-193: `updatedChapters` before the `from` filter. -/
def newChapters (u : Utils) (data : FeedEntry) : List UpdatedChapter :=
  match data.new_chapters with
  | some chaps => chaps.map (feedChapter u data)
  | none => []

/-- Lines 207-219: the object pushed on `mangas`. -/
def releasedManga (u : Utils) (data : FeedEntry) (updatedChapters : List UpdatedChapter) :
    ReleasedManga :=
  { sourceId := data.oid
    name := u.trimSpaces data.name
    url := mangaPageUrl ++ "/" ++ data.oid
    thumbnail := data.thumbnail
    rank := data.rank
    updatedChapters := updatedChapters
    updatedChaptersCount := updatedChapters.length
    updatedAt := data.updated_at
    completed := data.completed }

/-- The loop of lines 181-220; `frm` is `none` when `from` is falsy.  The `break` of
line 200 ends the recursion. -/
def releasesLoop (u : Utils) (frm : Option JsDate) : List FeedEntry → List ReleasedManga
  | [] => []
  | data :: rest =>
    let updatedChapters := newChapters u data
    let updatedAt := data.updated_at
    match frm with
    | some f =>
      if dateLt updatedAt f then []
      else
        releasedManga u data (updatedChapters.filter (fun chap => dateGe chap.updatedAt f))
          :: releasesLoop u frm rest
    | none => releasedManga u data updatedChapters :: releasesLoop u frm rest

/-- Lines 175-222 once the argument has been checked. -/
def releasesOf (u : Utils) (json : Response (List FeedEntry)) (frm : Option JsDate) :
    Except String (List ReleasedManga) :=
  if json.code ≠ 0 then
    .error ("Error getting manga releases: code " ++ toString json.code)
  else
    match json.data with
    | none => .error ("Error getting manga releases: code " ++ toString json.code)
    | some feed => .ok (releasesLoop u frm feed)

/-- `getReleases(from)`, lines 158-223; `json` is the response of the GET request. -/
def getReleases (u : Utils) (json : Response (List FeedEntry)) (frm : FromArg) :
    Except String (List ReleasedManga) :=
  match frm with
  | .notDate => .error "from should be a date"
  | .absent => releasesOf u json none
  | .date d => releasesOf u json (some d)

/-! ## `getMangasForFilters` -/

/-- The argument `filters` of `getMangasForFilters`. -/
structure Filters where
  genres : Option (List (String × Bool))
  order : JsStr
  rank : JsStr
  status : JsStr

/-- The request body built at lines 23-28. -/
structure FilterParams where
  genres : List (String × Bool)
  order : String
  rank : String
  status : String

/-- The expression `s || d` for a string field: `undefined` and the empty string are falsy. -/
def strOr (s : JsStr) (d : String) : String :=
  match s with
  | some v => if v = "" then d else v
  | none => d

/-- Lines 20-28: `filters = filters || {}` and the request body. -/
def filterParams (filters : Option Filters) : FilterParams :=
  let filters := filters.getD { genres := none, order := none, rank := none, status := none }
  { genres := filters.genres.getD []
    order := strOr filters.order "rank"
    rank := strOr filters.rank "all"
    status := strOr filters.status "all" }

/-- `getMangasForFilters(filters)`, lines 19-49; `post` answers the POST request. -/
def getMangasForFilters {α : Type} (post : FilterParams → Response α)
    (filters : Option Filters) : Except String α :=
  let json := post (filterParams filters)
  if json.code ≠ 0 then
    .error ("Error getting manga list for filters: code " ++ toString json.code)
  else
    match json.data with
    | none => .error ("Error getting manga list for filters: code " ++ toString json.code)
    | some data => .ok data

/-! ## The `/meta` look-ups -/

/-- A value of the `data` object answered by `/meta`. -/
structure MetaEntry where
  oid : String
  name : JsStr
  thumbnail : JsStr
  total_chapters : Option Int
  completed : Option Bool
  author_ids : Option (List String)

/-- The argument `ids` of the look-ups: an array, or anything else. -/
inductive IdsArg where
  | array (ids : List String)
  | notArray

/-- The `/meta` endpoint: the response to a body of ids, `data` being listed in the order
of `Object.values`. -/
abbrev MetaServer := List String → Response (List MetaEntry)

/-- An element of the result of `getMangasData`. -/
structure MangaData where
  sourceId : String
  name : JsStr
  thumbnail : JsStr
  chaptersCount : Int
  completed : Option Bool
  authors : Option (List String)
  deriving DecidableEq

/-- An element of the result of `getAuthorsData`; `role` is set by `getManga` only. -/
structure Author where
  sourceId : String
  name : JsStr
  thumbnail : JsStr
  role : JsStr
  deriving DecidableEq

/-- An element of the result of `getCategoriesData`. -/
structure Category where
  sourceId : String
  name : JsStr
  deriving DecidableEq

/-- Lines 56-86 with the given error label: the status check and the `map`. -/
def metaLookup {β : Type} (label : String) (post : MetaServer) (f : MetaEntry → β)
    (ids : IdsArg) : Except String (List β) :=
  match ids with
  | .notArray => .error "ids should be an array"
  | .array ids =>
    let json := post ids
    if json.code ≠ 0 then
      .error ("Error getting " ++ label ++ " data: code " ++ toString json.code)
    else
      match json.data with
      | none => .error ("Error getting " ++ label ++ " data: code " ++ toString json.code)
      | some data => .ok (data.map f)

/-- `getMangasData(ids)`, lines 51-87. -/
def getMangasData (u : Utils) (post : MetaServer) (ids : IdsArg) :
    Except String (List MangaData) :=
  metaLookup "mangas" post
    (fun data =>
      { sourceId := data.oid
        name := u.trimSpaces data.name
        thumbnail := data.thumbnail
        chaptersCount := data.total_chapters.getD 0
        completed := data.completed
        authors := data.author_ids })
    ids

/-- `getAuthorsData(ids)`, lines 89-122. -/
def getAuthorsData (post : MetaServer) (ids : IdsArg) : Except String (List Author) :=
  metaLookup "authors" post
    (fun data =>
      { sourceId := data.oid
        name := data.name
        thumbnail := data.thumbnail
        role := none })
    ids

/-- `getCategoriesData(ids)`, lines 124-156. -/
def getCategoriesData (u : Utils) (post : MetaServer) (ids : IdsArg) :
    Except String (List Category) :=
  metaLookup "categories" post
    (fun data =>
      { sourceId := data.oid
        name := u.trimSpaces data.name })
    ids

/-! ## `getManga` -/

/-- Section `default` of a manga detail. -/
structure DefaultInfo where
  oid : JsStr
  last_updated : Option Int

/-- Member `release_frequency` of `basic_info`, also the shape of `manga.frequency`. -/
structure Frequency where
  unit : JsStr
  amount : Option Int
  deriving DecidableEq

/-- Section `basic_info` of a manga detail; `alias_` is the member `alias`. -/
structure BasicInfo where
  name : JsStr
  rank : Option Int
  description : JsStr
  completed : Option Bool
  removed : Option Bool
  direction : Option Int
  thumbnail : JsStr
  cover : JsStr
  alias_ : Option (List String)
  release_frequency : Option Frequency

/-- Section `artworks`. -/
structure Artworks where
  artworks : Option (List String)

/-- Section `summary`. -/
structure Summary where
  plot_points : Option (List String)
  key_genres : Option (List String)

/-- Section `social_stats`. -/
structure SocialStats where
  rank : Option Int
  read : Option Int

/-- Section `sub_genres`. -/
structure SubGenres where
  sub_genres : Option (List String)

/-- An element of `chapters.chapters`. -/
structure RawChapter where
  oid : String
  name : JsStr
  order : ℚ
  last_updated : Option Int
  deriving DecidableEq

/-- Section `chapters`. -/
structure ChapterSection where
  chapters : Option (List RawChapter)

/-- An element of `author.authors`. -/
structure RawAuthor where
  oid : String
  role : JsStr

/-- Section `author`. -/
structure AuthorSection where
  authors : Option (List RawAuthor)

/-- The object `json.data[id]`; every section may be missing. -/
structure MangaDetail where
  default : Option DefaultInfo
  basic_info : Option BasicInfo
  artworks : Option Artworks
  summary : Option Summary
  social_stats : Option SocialStats
  sub_genres : Option SubGenres
  chapters : Option ChapterSection
  author : Option AuthorSection

/-- An element of `manga.chapters`; `number` is `none` until line 347 or 356 assigns it. -/
structure Chapter where
  sourceId : String
  index : Nat
  name : JsStr
  url : String
  updatedAt : JsDate
  number : Option ℚ
  deriving DecidableEq

/-- The object `manga.summary`. -/
structure MangaSummary where
  points : Option (List String)
  tags : Option (List Category)
  deriving DecidableEq

/-- The result of `getManga`. -/
structure Manga where
  sourceId : JsStr
  name : JsStr
  url : String
  rank : Option Int
  description : JsStr
  completed : Option Bool
  deleted : Option Bool
  direction : Option Int
  thumbnail : JsStr
  cover : JsStr
  artworks : Option (List String)
  aliases : Option (List String)
  updatedAt : JsDate
  summary : Option MangaSummary
  frequency : Option Frequency
  views : Option Int
  tags : Option (List Category)
  chapters : List Chapter
  chaptersCount : Nat
  authors : List Author
  deriving DecidableEq

/-- The manga-detail endpoint: the response to the request for `id`, its `data` being an
object indexed by manga id. -/
abbrev DetailServer := String → Response (List (String × MangaDetail))

/-- The largest time value of a `Date`: 8.64e15 milliseconds on either side of the epoch. -/
def maxTime : Int := 8640000000000000

/-- The expression `new Date(v)` for an integer `v`: `Invalid Date` when `v` is outside the
range of time values. -/
def newDate (v : Int) : JsDate :=
  if -maxTime ≤ v ∧ v ≤ maxTime then some v else none

/-- Lines 290 and 333: `t < now ? new Date(t * 1000) : new Date(t)`, with `now` the clock
reading `new Date().getTime() / 1000` in seconds.  An undefined `t` compares false and
gives `Invalid Date`. -/
def releaseDate (now : ℚ) (t : Option Int) : JsDate :=
  match t with
  | some t => if (t : ℚ) < now then newDate (t * 1000) else newDate t
  | none => none

/-- The test `point.match(/[.?!]$/)`. -/
def endsWithPunctuation (point : String) : Bool :=
  match point.data.getLast? with
  | some c => c == '.' || c == '?' || c == '!'
  | none => false

/-- Line 298: the callback of `summary.plot_points.map`. -/
def plotPoint (u : Utils) (point : String) : String :=
  interp (u.trimSpaces (some point)) ++ (if endsWithPunctuation point then "" else ".")

/-- Line 330: `chapters.sort((a, b) => a.order - b.order)`, a stable sort on `order`. -/
def sortChapters (chapters : List RawChapter) : List RawChapter :=
  chapters.insertionSort (fun a b => a.order ≤ b.order)

/-- Lines 331-341: the `map` with the running counter `index`. -/
def mapChapters (u : Utils) (now : ℚ) (mangaOid : JsStr) (index : Nat) :
    List RawChapter → List Chapter
  | [] => []
  | chap :: rest =>
    { sourceId := chap.oid
      index := index
      name := u.trimSpaces chap.name
      url := mangaPageUrl ++ "/" ++ interp mangaOid ++ "/chapter/" ++ chap.oid
      updatedAt := releaseDate now chap.last_updated
      number := none } :: mapChapters u now mangaOid (index + 1) rest

/-- Lines 328-342: `manga.chapters`. -/
def mangaChapters (u : Utils) (now : ℚ) (mangaOid : JsStr) (sec : Option ChapterSection) :
    List Chapter :=
  match sec with
  | some sec =>
    match sec.chapters with
    | some chapters => mapChapters u now mangaOid 0 (sortChapters chapters)
    | none => []
  | none => []

/-- The loop of lines 346-353.  `chapNumbers` lists the keys set to `true` so far; the
result is the chapter list after the loop and the flag `hasIssues`.  After a `break` the
remaining chapters are left untouched. -/
def numberLoop (u : Utils) (mangaName : JsStr) (chapNumbers : List ℚ) :
    List Chapter → List Chapter × Bool
  | [] => ([], false)
  | chap :: rest =>
    let number := u.parseChapterNumber chap.name mangaName
    let chap := { chap with number := some number }
    if 0 ≤ number ∧ number ∈ chapNumbers then (chap :: rest, true)
    else
      let r := numberLoop u mangaName (number :: chapNumbers) rest
      (chap :: r.1, r.2)

/-- Lines 344-358: the numbering of the chapters and the reset when a number repeats. -/
def numberChapters (u : Utils) (mangaName : JsStr) (chapters : List Chapter) : List Chapter :=
  let r := numberLoop u mangaName [] chapters
  if r.2 then r.1.map (fun chap => { chap with number := some (-1) }) else r.1

/-- Line 365: `auths[oid] = role` on an object kept as an association list in the order
in which the keys were created. -/
def setKey (auths : List (String × JsStr)) (oid : String) (role : JsStr) :
    List (String × JsStr) :=
  match auths with
  | [] => [(oid, role)]
  | (k, v) :: rest => if k = oid then (k, role) :: rest else (k, v) :: setKey rest oid role

/-- The number denoted by a key that is an array index: the canonical decimal form of a
natural number below `2^32 - 1`. -/
def arrayIndex (key : String) : Option Nat :=
  match key.toNat? with
  | some n => if toString n = key ∧ n < 4294967295 then some n else none
  | none => none

/-- Line 368: `Object.keys(auths)`, the array-index keys in ascending order followed by the
other keys in the order of their creation. -/
def objectKeys (auths : List (String × JsStr)) : List String :=
  let keys := auths.map Prod.fst
  ((keys.filterMap arrayIndex).insertionSort (fun a b => a ≤ b)).map toString ++
    keys.filter (fun key => (arrayIndex key).isNone)

/-- Lines 363-366: the object `auths`. -/
def authorRoles (u : Utils) (authors : List RawAuthor) : List (String × JsStr) :=
  authors.foldl (fun auths auth => setKey auths auth.oid (u.trimSpaces auth.role)) []

/-- Lines 361-373: `manga.authors`. -/
def mangaAuthors (u : Utils) (metaPost : MetaServer) (sec : Option AuthorSection) :
    Except String (List Author) :=
  match sec with
  | some sec =>
    match sec.authors with
    | some raw =>
      let auths := authorRoles u raw
      match getAuthorsData metaPost (.array (objectKeys auths)) with
      | .error e => .error e
      | .ok authors =>
        .ok (authors.map (fun auth => { auth with role := (auths.lookup auth.sourceId).join }))
    | none => .ok []
  | none => .ok []

/-- Lines 293-309: `manga.summary`. -/
def mangaSummary (u : Utils) (metaPost : MetaServer) (summary : Option Summary) :
    Except String (Option MangaSummary) :=
  match summary with
  | some summary =>
    let points := summary.plot_points.map (fun ps => ps.map (plotPoint u))
    match summary.key_genres with
    | some genres =>
      match getCategoriesData u metaPost (.array genres) with
      | .error e => .error e
      | .ok tags => .ok (some { points := points, tags := some tags })
    | none => .ok (some { points := points, tags := none })
  | none => .ok none

/-- Lines 323-326: `manga.tags`. -/
def mangaTags (u : Utils) (metaPost : MetaServer) (sec : Option SubGenres) :
    Except String (Option (List Category)) :=
  match sec with
  | some sec =>
    match sec.sub_genres with
    | some genres =>
      match getCategoriesData u metaPost (.array genres) with
      | .error e => .error e
      | .ok tags => .ok (some tags)
    | none => .ok none
  | none => .ok none

/-- Line 275: `data.default || {}`. -/
def defaultInfoOf (data : MangaDetail) : DefaultInfo :=
  data.default.getD { oid := none, last_updated := none }

/-- Line 276: `data.basic_info || {}`. -/
def basicInfoOf (data : MangaDetail) : BasicInfo :=
  data.basic_info.getD
    { name := none, rank := none, description := none, completed := none, removed := none,
      direction := none, thumbnail := none, cover := none, alias_ := none,
      release_frequency := none }

/-- Lines 271-375: the parsing of `data = json.data[id]`. -/
def parseManga (u : Utils) (metaPost : MetaServer) (now : ℚ) (data : MangaDetail) :
    Except String Manga :=
  let defaultInfo := defaultInfoOf data
  let basicInfo := basicInfoOf data
  let name := u.trimSpaces basicInfo.name
  match data.artworks with
  | none => .error "TypeError: data.artworks is undefined"
  | some artworks =>
    match mangaSummary u metaPost data.summary with
    | .error e => .error e
    | .ok summary =>
      match mangaTags u metaPost data.sub_genres with
      | .error e => .error e
      | .ok tags =>
        let chapters := numberChapters u name
          (mangaChapters u now defaultInfo.oid data.chapters)
        match mangaAuthors u metaPost data.author with
        | .error e => .error e
        | .ok authors =>
          .ok
            { sourceId := defaultInfo.oid
              name := name
              url := mangaPageUrl ++ "/" ++ interp defaultInfo.oid
              rank := match data.social_stats with
                | some stats => stats.rank
                | none => basicInfo.rank
              description := basicInfo.description
              completed := basicInfo.completed
              deleted := basicInfo.removed
              direction := basicInfo.direction
              thumbnail := basicInfo.thumbnail
              cover := basicInfo.cover
              artworks := artworks.artworks
              aliases := basicInfo.alias_
              updatedAt := releaseDate now defaultInfo.last_updated
              summary := summary
              frequency := basicInfo.release_frequency
              views := match data.social_stats with
                | some stats => stats.read
                | none => none
              tags := tags
              chapters := chapters
              chaptersCount := chapters.length
              authors := authors }

/-- `getManga(id)`, lines 225-376.  `post` answers the detail request, `metaPost` the
nested look-ups, and `now` is the clock reading of line 271. -/
def getManga (u : Utils) (post : DetailServer) (metaPost : MetaServer) (now : ℚ)
    (id : String) : Except String Manga :=
  if id = "" then .error "manga id required"
  else
    let json := post id
    if json.code ≠ 0 then
      .error ("Error getting manga data: code " ++ toString json.code)
    else
      match json.data with
      | none => .error ("Error getting manga data: code " ++ toString json.code)
      | some data =>
        match data.lookup id with
        | none => .error ("Error getting manga data: code " ++ toString json.code)
        | some detail => parseManga u metaPost now detail

/-- Following the spec's words: the feed entries whose `updatedAt` is at or after `from`. -/
def entriesSince (f : JsDate) (feed : List FeedEntry) : List FeedEntry :=
  feed.filter (fun e => dateGe e.updated_at f)

/-! ## Sample data -/

/-- Helpers that leave a name as it is and read no chapter number. -/
def plainUtils : Utils :=
  { trimSpaces := fun s => s
    parseChapterNumber := fun _ _ => -1 }

/-- A feed entry with the given id, time value and new chapters. -/
def sampleEntry (oid : String) (t : Int) (chaps : Option (List FeedChapter)) : FeedEntry :=
  { oid := oid, name := some oid, thumbnail := none, rank := none, completed := none,
    new_chapters := chaps, updated_at := some t }

/-- A feed that is not sorted by date: the older entry comes first. -/
def unsortedFeed : List FeedEntry :=
  [sampleEntry "a" 5 none, sampleEntry "b" 20 none]

/-- A feed sorted from the newest entry to the oldest. -/
def sortedFeed : List FeedEntry :=
  [sampleEntry "b" 20 (some [⟨"b2", some "ch 2", some 20⟩, ⟨"b1", some "ch 1", some 7⟩]),
   sampleEntry "a" 5 none]

/-- Helpers that read the number of "Chapter 1" and "Chapter 2" and nothing else. -/
def readingUtils : Utils :=
  { trimSpaces := fun s => s
    parseChapterNumber := fun name _ =>
      if name = some "Chapter 1" then 1 else if name = some "Chapter 2" then 2 else -1 }

/-- Helpers that read the number 3 from every name. -/
def constantUtils : Utils :=
  { trimSpaces := fun s => s
    parseChapterNumber := fun _ _ => 3 }

/-- Three chapters out of order; two names carry no number. -/
def sampleChapters : List RawChapter :=
  [⟨"c3", some "Extra", 3, some 1500000000000⟩,
   ⟨"c1", some "Chapter 1", 1, some 1400000000⟩,
   ⟨"c2", some "Omake", 2, some 1450000000⟩]

/-- A manga detail with the sections `default`, `basic_info`, `artworks` and `chapters`. -/
def sampleDetail : MangaDetail :=
  { default := some { oid := some "m1", last_updated := some 1450000000 }
    basic_info := some
      { name := some "Manga", rank := none, description := none, completed := none,
        removed := none, direction := none, thumbnail := none, cover := none, alias_ := none,
        release_frequency := none }
    artworks := some { artworks := some [] }
    summary := none
    social_stats := none
    sub_genres := none
    chapters := some { chapters := some sampleChapters }
    author := none }

/-- A detail endpoint that knows the manga "m1" only. -/
def samplePost : DetailServer :=
  fun _ => { code := 0, data := some [("m1", sampleDetail)] }

/-- A `/meta` endpoint that answers with an empty object. -/
def sampleMeta : MetaServer :=
  fun _ => { code := 0, data := some [] }

/-- A clock reading, in seconds. -/
def sampleNow : ℚ := 1500000000

/-- A manga detail without any section. -/
def emptyDetail : MangaDetail :=
  { default := none, basic_info := none, artworks := none, summary := none,
    social_stats := none, sub_genres := none, chapters := none, author := none }

/-- The manga expected from `sampleDetail`, given the three chapter numbers. -/
def sampleManga (n1 n2 n3 : ℚ) : Manga :=
  { sourceId := some "m1"
    name := some "Manga"
    url := "https://mangarock.com/manga/m1"
    rank := none
    description := none
    completed := none
    deleted := none
    direction := none
    thumbnail := none
    cover := none
    artworks := some []
    aliases := none
    updatedAt := some 1450000000000
    summary := none
    frequency := none
    views := none
    tags := none
    chapters :=
      [⟨"c1", 0, some "Chapter 1", "https://mangarock.com/manga/m1/chapter/c1",
          some 1400000000000, some n1⟩,
       ⟨"c2", 1, some "Omake", "https://mangarock.com/manga/m1/chapter/c2",
          some 1450000000000, some n2⟩,
       ⟨"c3", 2, some "Extra", "https://mangarock.com/manga/m1/chapter/c3",
          some 1500000000000, some n3⟩]
    chaptersCount := 3
    authors := [] }

/-- The sample detail with a `last_updated` beyond the range of time values. -/
def farFutureDetail : MangaDetail :=
  { sampleDetail with
    default := some { oid := some "m1", last_updated := some 9000000000000000 } }

/-- A detail endpoint answering with `farFutureDetail` for the manga "m1". -/
def farFuturePost : DetailServer :=
  fun _ => { code := 0, data := some [("m1", farFutureDetail)] }

/-- The sample detail without its `artworks` section. -/
def noArtworksDetail : MangaDetail :=
  { sampleDetail with artworks := none }

/-- A detail endpoint answering with `noArtworksDetail` for the manga "m1". -/
def noArtworksPost : DetailServer :=
  fun _ => { code := 0, data := some [("m1", noArtworksDetail)] }

/-! ## Properties of `getReleases` -/

theorem dateGe_eq_not_dateLt (x f : Int) :
    dateGe (some x) (some f) = !dateLt (some x) (some f) := by
  simp only [dateGe, dateLt]
  by_cases h : f ≤ x
  · have h2 : ¬ x < f := by omega
    simp [h, h2]
  · have h2 : x < f := by omega
    simp [h, h2]

theorem releasesLoop_none (u : Utils) (feed : List FeedEntry) :
    releasesLoop u none feed = feed.map (fun data => releasedManga u data (newChapters u data)) := by
  induction feed with
  | nil => rfl
  | cons data rest ih => simp [releasesLoop, ih]

theorem releasesLoop_some (u : Utils) (f : JsDate) (feed : List FeedEntry) :
    releasesLoop u (some f) feed =
      (feed.takeWhile (fun data => !dateLt data.updated_at f)).map (fun data =>
        releasedManga u data ((newChapters u data).filter (fun chap => dateGe chap.updatedAt f))) := by
  induction feed with
  | nil => rfl
  | cons data rest ih =>
    by_cases h : dateLt data.updated_at f = true
    · simp [releasesLoop, List.takeWhile_cons, h]
    · simp [releasesLoop, List.takeWhile_cons, h, ih]

theorem takeWhile_valid (f : Int) (feed : List FeedEntry)
    (hvalid : ∀ e ∈ feed, e.updated_at ≠ none) :
    feed.takeWhile (fun data => !dateLt data.updated_at (some f)) =
      feed.takeWhile (fun data => dateGe data.updated_at (some f)) := by
  induction feed with
  | nil => rfl
  | cons data rest ih =>
    have hd : data.updated_at ≠ none := hvalid data (List.mem_cons_self _ _)
    have hr : ∀ e ∈ rest, e.updated_at ≠ none := fun e he => hvalid e (List.mem_cons_of_mem _ he)
    obtain ⟨x, hx⟩ := Option.ne_none_iff_exists'.mp hd
    simp only [List.takeWhile_cons, hx, dateGe_eq_not_dateLt, ih hr]

theorem takeWhile_eq_filter_of_sorted (f : Int) (feed : List FeedEntry)
    (hsorted : feed.Pairwise (fun a b => dateGe a.updated_at b.updated_at = true)) :
    feed.takeWhile (fun data => dateGe data.updated_at (some f)) =
      entriesSince (some f) feed := by
  induction feed with
  | nil => rfl
  | cons data rest ih =>
    rw [List.pairwise_cons] at hsorted
    by_cases h : dateGe data.updated_at (some f) = true
    · simp only [entriesSince, List.takeWhile_cons, List.filter_cons, h, if_true]
      exact congrArg _ (ih hsorted.2)
    · have hall : ∀ e ∈ rest, dateGe e.updated_at (some f) = false := by
        intro e he
        have hde := hsorted.1 e he
        cases hd : data.updated_at with
        | none => simp [hd, dateGe] at hde
        | some x =>
          cases hee : e.updated_at with
          | none => simp [dateGe]
          | some y =>
            simp only [hd, hee, dateGe, decide_eq_true_eq] at hde h
            simp only [dateGe, decide_eq_false_iff_not]
            omega
      have hnil : rest.filter (fun e => dateGe e.updated_at (some f)) = [] := by
        rw [List.filter_eq_nil_iff]
        intro e he
        simp [hall e he]
      simp [entriesSince, List.takeWhile_cons, List.filter_cons, h, hnil]

theorem getReleases_date_ok (u : Utils) (feed : List FeedEntry) (f : JsDate) :
    getReleases u { code := 0, data := some feed } (.date f) = .ok (releasesLoop u (some f) feed) := by
  simp [getReleases, releasesOf]

theorem getReleases_absent_ok (u : Utils) (feed : List FeedEntry) :
    getReleases u { code := 0, data := some feed } .absent = .ok (releasesLoop u none feed) := by
  simp [getReleases, releasesOf]

theorem releasesLoop_ids_valid (u : Utils) (f : Int) (feed : List FeedEntry)
    (hvalid : ∀ e ∈ feed, e.updated_at ≠ none) :
    (releasesLoop u (some (some f)) feed).map (fun m => (m.sourceId, m.updatedAt)) =
      (feed.takeWhile (fun data => dateGe data.updated_at (some f))).map
        (fun e => (e.oid, e.updated_at)) := by
  rw [releasesLoop_some, takeWhile_valid f feed hvalid, List.map_map]
  rfl

theorem dateLt_invalid (a : JsDate) : dateLt a none = false := by
  cases a <;> rfl

theorem dateGe_invalid (a : JsDate) : dateGe a none = false := by
  cases a <;> rfl

theorem releasesLoop_invalid (u : Utils) (feed : List FeedEntry) :
    releasesLoop u (some none) feed = feed.map (fun data => releasedManga u data []) := by
  induction feed with
  | nil => rfl
  | cons data rest ih => simp [releasesLoop, ih, dateLt_invalid, dateGe_invalid]

theorem sortedFeed_valid : ∀ e ∈ sortedFeed, e.updated_at ≠ none := by
  intro e he
  simp only [sortedFeed, List.mem_cons, List.mem_singleton, List.not_mem_nil, or_false] at he
  rcases he with rfl | rfl <;> simp [sampleEntry]

theorem unsortedFeed_valid : ∀ e ∈ unsortedFeed, e.updated_at ≠ none := by
  intro e he
  simp only [unsortedFeed, List.mem_cons, List.mem_singleton, List.not_mem_nil, or_false] at he
  rcases he with rfl | rfl <;> simp [sampleEntry]

theorem sortedFeed_sorted :
    sortedFeed.Pairwise (fun a b => dateGe a.updated_at b.updated_at = true) := by
  simp [sortedFeed, sampleEntry, dateGe]

/-- C4, as stated, fails in two ways.  On a feed whose first entry is older than `from`
and whose second entry is newer, `getReleases(from)` returns the empty list although one
entry has `updatedAt >= from`.  And with an `Invalid Date` as `from`, on a sorted feed with
valid timestamps, every entry is returned although none has `updatedAt >= from`. -/
theorem getReleases_filter_counterexample :
    ((∀ e ∈ unsortedFeed, e.updated_at ≠ none) ∧
      ∃ r, getReleases plainUtils { code := 0, data := some unsortedFeed } (.date (some 10)) =
          .ok r ∧
        r.map (fun m => m.sourceId) = [] ∧
        (entriesSince (some 10) unsortedFeed).map (fun e => e.oid) = ["b"] ∧
        r.map (fun m => m.sourceId) ≠
          (entriesSince (some 10) unsortedFeed).map (fun e => e.oid)) ∧
    ((∀ e ∈ sortedFeed, e.updated_at ≠ none) ∧
      sortedFeed.Pairwise (fun a b => dateGe a.updated_at b.updated_at = true) ∧
      ∃ r, getReleases plainUtils { code := 0, data := some sortedFeed } (.date none) = .ok r ∧
        r.map (fun m => m.sourceId) = ["b", "a"] ∧
        (entriesSince none sortedFeed).map (fun e => e.oid) = [] ∧
        r.map (fun m => m.sourceId) ≠ (entriesSince none sortedFeed).map (fun e => e.oid)) := by
  refine ⟨⟨unsortedFeed_valid, [], ?_, rfl, ?_, ?_⟩,
    ⟨sortedFeed_valid, sortedFeed_sorted, _, getReleases_date_ok plainUtils sortedFeed none,
      ?_, ?_, ?_⟩⟩
  · simp [getReleases, releasesOf, unsortedFeed, releasesLoop, sampleEntry, dateLt]
  · simp [entriesSince, unsortedFeed, sampleEntry, dateGe]
  · simp [entriesSince, unsortedFeed, sampleEntry, dateGe]
  · simp [releasesLoop_invalid, sortedFeed, sampleEntry, releasedManga]
  · simp [entriesSince, dateGe_invalid]
  · simp [releasesLoop_invalid, entriesSince, dateGe_invalid, sortedFeed]

/-- C4, amended: for every release feed with valid timestamps that is sorted by
non-increasing `updatedAt`, and every valid date `from`, `getReleases(from)` returns exactly
the feed entries whose `updatedAt` is at or after `from`, in feed order; with an
`Invalid Date` as `from` it returns every feed entry. -/
theorem getReleases_filter_of_sorted (u : Utils) (feed : List FeedEntry) (f : Int)
    (hvalid : ∀ e ∈ feed, e.updated_at ≠ none)
    (hsorted : feed.Pairwise (fun a b => dateGe a.updated_at b.updated_at = true)) :
    (∃ r, getReleases u { code := 0, data := some feed } (.date (some f)) = .ok r ∧
      r.map (fun m => m.sourceId) = (entriesSince (some f) feed).map (fun e => e.oid)) ∧
    (∃ r, getReleases u { code := 0, data := some feed } (.date none) = .ok r ∧
      r.map (fun m => m.sourceId) = feed.map (fun e => e.oid)) := by
  refine ⟨⟨_, getReleases_date_ok u feed (some f), ?_⟩,
    ⟨_, getReleases_date_ok u feed none, ?_⟩⟩
  · have h := congrArg (List.map Prod.fst) (releasesLoop_ids_valid u f feed hvalid)
    rw [takeWhile_eq_filter_of_sorted f feed hsorted] at h
    simpa [List.map_map, Function.comp_def] using h
  · rw [releasesLoop_invalid, List.map_map]
    rfl

theorem getReleases_filter_of_sorted_witness :
    (∀ e ∈ sortedFeed, e.updated_at ≠ none) ∧
    sortedFeed.Pairwise (fun a b => dateGe a.updated_at b.updated_at = true) ∧
    (∃ r, getReleases plainUtils { code := 0, data := some sortedFeed } (.date (some 10)) =
        .ok r ∧
      r.map (fun m => m.sourceId) = (entriesSince (some 10) sortedFeed).map (fun e => e.oid)) ∧
    (∃ r, getReleases plainUtils { code := 0, data := some sortedFeed } (.date none) = .ok r ∧
      r.map (fun m => m.sourceId) = sortedFeed.map (fun e => e.oid)) :=
  ⟨sortedFeed_valid, sortedFeed_sorted,
    getReleases_filter_of_sorted plainUtils sortedFeed 10 sortedFeed_valid sortedFeed_sorted⟩

/-- C7, as stated, fails: with an `Invalid Date` as `from`, on a feed with valid
timestamps, every feed entry is returned, while no entry has `updatedAt >= from`: the
longest prefix of such entries is empty and no returned manga has `updatedAt >= from`. -/
theorem getReleases_cutoff_counterexample :
    (∀ e ∈ sortedFeed, e.updated_at ≠ none) ∧
    ∃ r, getReleases plainUtils { code := 0, data := some sortedFeed } (.date none) = .ok r ∧
      r.map (fun m => m.sourceId) = ["b", "a"] ∧
      (sortedFeed.takeWhile (fun e => dateGe e.updated_at none)).map (fun e => e.oid) = [] ∧
      (∀ m ∈ r, dateGe m.updatedAt none = false) := by
  refine ⟨sortedFeed_valid, _, getReleases_date_ok plainUtils sortedFeed none, ?_, ?_, ?_⟩
  · simp [releasesLoop_invalid, sortedFeed, sampleEntry, releasedManga]
  · simp [sortedFeed, dateGe_invalid]
  · intro m _
    exact dateGe_invalid m.updatedAt

/-- C7, amended: with valid feed timestamps and a valid date `from`, the result of
`getReleases(from)` corresponds, in order, to the longest prefix of the feed whose entries
all have `updatedAt >= from`; every returned manga has `updatedAt >= from`; on a feed
sorted by non-increasing `updatedAt` the result is exactly the entries with
`updatedAt >= from`.  With an `Invalid Date` as `from`, and without `from`, the result has
one entry per feed entry, in feed order. -/
theorem getReleases_cutoff (u : Utils) (feed : List FeedEntry) :
    (∀ f : Int, (∀ e ∈ feed, e.updated_at ≠ none) →
      ∃ r, getReleases u { code := 0, data := some feed } (.date (some f)) = .ok r ∧
        r.map (fun m => (m.sourceId, m.updatedAt)) =
          (feed.takeWhile (fun e => dateGe e.updated_at (some f))).map
            (fun e => (e.oid, e.updated_at)) ∧
        (∀ m ∈ r, dateGe m.updatedAt (some f) = true) ∧
        (feed.Pairwise (fun a b => dateGe a.updated_at b.updated_at = true) →
          r.map (fun m => m.sourceId) = (entriesSince (some f) feed).map (fun e => e.oid))) ∧
    (∃ r, getReleases u { code := 0, data := some feed } (.date none) = .ok r ∧
      r.length = feed.length ∧
      r.map (fun m => (m.sourceId, m.updatedAt)) =
        feed.map (fun e => (e.oid, e.updated_at))) ∧
    (∃ r, getReleases u { code := 0, data := some feed } .absent = .ok r ∧
      r.length = feed.length ∧
      r.map (fun m => (m.sourceId, m.updatedAt)) =
        feed.map (fun e => (e.oid, e.updated_at))) := by
  refine ⟨fun f hvalid => ?_, ⟨_, getReleases_date_ok u feed none, ?_, ?_⟩,
    ⟨_, getReleases_absent_ok u feed, ?_, ?_⟩⟩
  · have hids := releasesLoop_ids_valid u f feed hvalid
    refine ⟨_, getReleases_date_ok u feed (some f), hids, ?_, ?_⟩
    · intro m hm
      have hmem : (m.sourceId, m.updatedAt) ∈
          (releasesLoop u (some (some f)) feed).map (fun m => (m.sourceId, m.updatedAt)) :=
        List.mem_map_of_mem _ hm
      rw [hids, List.mem_map] at hmem
      obtain ⟨e, he, heq⟩ := hmem
      have hp := List.mem_takeWhile_imp he
      have h2 : e.updated_at = m.updatedAt := congrArg Prod.snd heq
      rw [← h2]
      exact hp
    · intro hsorted
      have h := congrArg (List.map Prod.fst) hids
      rw [takeWhile_eq_filter_of_sorted f feed hsorted] at h
      simpa [List.map_map, Function.comp_def] using h
  · rw [releasesLoop_invalid, List.length_map]
  · rw [releasesLoop_invalid, List.map_map]
    rfl
  · rw [releasesLoop_none, List.length_map]
  · rw [releasesLoop_none, List.map_map]
    rfl

theorem getReleases_cutoff_witness :
    (∀ e ∈ sortedFeed, e.updated_at ≠ none) ∧
    (∃ r, getReleases plainUtils { code := 0, data := some sortedFeed } (.date (some 10)) =
        .ok r ∧
      r.map (fun m => (m.sourceId, m.updatedAt)) =
        (sortedFeed.takeWhile (fun e => dateGe e.updated_at (some 10))).map
          (fun e => (e.oid, e.updated_at)) ∧
      (∀ m ∈ r, dateGe m.updatedAt (some 10) = true) ∧
      (sortedFeed.Pairwise (fun a b => dateGe a.updated_at b.updated_at = true) →
        r.map (fun m => m.sourceId) =
          (entriesSince (some 10) sortedFeed).map (fun e => e.oid))) ∧
    (∃ r, getReleases plainUtils { code := 0, data := some sortedFeed } (.date none) = .ok r ∧
      r.length = sortedFeed.length ∧
      r.map (fun m => (m.sourceId, m.updatedAt)) =
        sortedFeed.map (fun e => (e.oid, e.updated_at))) ∧
    (∃ r, getReleases plainUtils { code := 0, data := some sortedFeed } .absent = .ok r ∧
      r.length = sortedFeed.length ∧
      r.map (fun m => (m.sourceId, m.updatedAt)) =
        sortedFeed.map (fun e => (e.oid, e.updated_at))) :=
  ⟨sortedFeed_valid, (getReleases_cutoff plainUtils sortedFeed).1 10 sortedFeed_valid,
    (getReleases_cutoff plainUtils sortedFeed).2⟩

theorem releasesLoop_mem (u : Utils) (frm : Option JsDate) (feed : List FeedEntry)
    (m : ReleasedManga) :
    m ∈ releasesLoop u frm feed → ∃ data ∈ feed, m = releasedManga u data
      (match frm with
        | some f => (newChapters u data).filter (fun chap => dateGe chap.updatedAt f)
        | none => newChapters u data) := by
  intro hm
  cases frm with
  | none =>
    rw [releasesLoop_none, List.mem_map] at hm
    obtain ⟨data, hd, rfl⟩ := hm
    exact ⟨data, hd, rfl⟩
  | some f =>
    rw [releasesLoop_some, List.mem_map] at hm
    obtain ⟨data, hd, rfl⟩ := hm
    exact ⟨data, (List.takeWhile_sublist _).subset hd, rfl⟩

theorem releasesOf_mem (u : Utils) (json : Response (List FeedEntry)) (frm : Option JsDate)
    (r : List ReleasedManga) (h : releasesOf u json frm = .ok r) :
    ∃ feed, json.data = some feed ∧ r = releasesLoop u frm feed := by
  unfold releasesOf at h
  split at h
  · cases h
  · split at h
    · cases h
    · rename_i feed hfeed
      injection h with h
      exact ⟨feed, hfeed, h.symm⟩

theorem releasesOf_updatedChapters (u : Utils) (json : Response (List FeedEntry))
    (o : Option JsDate) (r : List ReleasedManga) (h : releasesOf u json o = .ok r) :
    ∃ feed, json.data = some feed ∧ ∀ m ∈ r, ∃ data ∈ feed,
      m.sourceId = data.oid ∧
      (data.new_chapters = none → m.updatedChapters = []) ∧
      (∀ chaps : List FeedChapter, data.new_chapters = some chaps →
        (∀ d, o = some d →
          m.updatedChapters =
            (chaps.filter (fun chap => dateGe chap.updatedAt d)).map (fun chap =>
              { sourceId := chap.oid
                name := u.trimSpaces chap.name
                url := "https://mangarock.com/manga/" ++ data.oid ++ "/chapter/" ++ chap.oid
                updatedAt := chap.updatedAt })) ∧
        (o = none →
          m.updatedChapters =
            chaps.map (fun chap =>
              { sourceId := chap.oid
                name := u.trimSpaces chap.name
                url := "https://mangarock.com/manga/" ++ data.oid ++ "/chapter/" ++ chap.oid
                updatedAt := chap.updatedAt })) ∧
        (m.updatedChapters.map (fun c => c.sourceId)).Sublist
          (chaps.map (fun chap => chap.oid))) ∧
      m.updatedChaptersCount = m.updatedChapters.length := by
  obtain ⟨feed, hfeed, rfl⟩ := releasesOf_mem u json o r h
  refine ⟨feed, hfeed, ?_⟩
  intro m hm
  obtain ⟨data, hd, rfl⟩ := releasesLoop_mem u o feed m hm
  have hurl : ∀ chap : FeedChapter, feedChapter u data chap =
      { sourceId := chap.oid
        name := u.trimSpaces chap.name
        url := "https://mangarock.com/manga/" ++ data.oid ++ "/chapter/" ++ chap.oid
        updatedAt := chap.updatedAt } := by
    intro chap
    simp only [feedChapter, mangaPageUrl, UpdatedChapter.mk.injEq, true_and, and_true]
    rw [String.append_assoc "https://mangarock.com/manga" "/" data.oid]
    rfl
  refine ⟨data, hd, rfl, ?_, ?_, rfl⟩
  · intro hnone
    cases o <;> simp [releasedManga, newChapters, hnone]
  · intro chaps hsome
    have hnew : newChapters u data = chaps.map (feedChapter u data) := by
      simp [newChapters, hsome]
    have hfun : feedChapter u data = fun chap =>
        ({ sourceId := chap.oid
           name := u.trimSpaces chap.name
           url := "https://mangarock.com/manga/" ++ data.oid ++ "/chapter/" ++ chap.oid
           updatedAt := chap.updatedAt } : UpdatedChapter) := funext hurl
    refine ⟨?_, ?_, ?_⟩
    · intro d hd
      subst hd
      show (newChapters u data).filter (fun chap => dateGe chap.updatedAt d) = _
      rw [hnew, List.filter_map, ← hfun]
      rfl
    · intro hnone
      subst hnone
      show newChapters u data = _
      rw [hnew, hfun]
    · have hsub : List.Sublist
          (match o with
            | some f =>
              (newChapters u data).filter (fun chap : UpdatedChapter => dateGe chap.updatedAt f)
            | none => newChapters u data)
          (newChapters u data) := by
        cases o with
        | none => exact List.Sublist.refl _
        | some f => exact List.filter_sublist _
      have hmap := hsub.map (fun c : UpdatedChapter => c.sourceId)
      have hr : (newChapters u data).map (fun c => c.sourceId) =
          chaps.map (fun chap => chap.oid) := by
        rw [hnew, List.map_map]
        rfl
      rw [hr] at hmap
      exact hmap

/-- C8: every manga returned by `getReleases` comes from a feed entry.  Its
`updatedChapters` is empty when the entry has no `new_chapters`; otherwise it is made, in
the order of `new_chapters`, of the chapters with `updatedAt >= from` when `from` is given
and of all the chapters when `from` is absent, each with the `sourceId`, trimmed name, url
and `updatedAt` of the feed chapter.  Its `updatedChaptersCount` is the length of
`updatedChapters`. -/
theorem getReleases_updatedChapters (u : Utils) (json : Response (List FeedEntry))
    (frm : FromArg) (r : List ReleasedManga) (h : getReleases u json frm = .ok r) :
    ∃ feed, json.data = some feed ∧ ∀ m ∈ r, ∃ data ∈ feed,
      m.sourceId = data.oid ∧
      (data.new_chapters = none → m.updatedChapters = []) ∧
      (∀ chaps : List FeedChapter, data.new_chapters = some chaps →
        (∀ d, frm = .date d →
          m.updatedChapters =
            (chaps.filter (fun chap => dateGe chap.updatedAt d)).map (fun chap =>
              { sourceId := chap.oid
                name := u.trimSpaces chap.name
                url := "https://mangarock.com/manga/" ++ data.oid ++ "/chapter/" ++ chap.oid
                updatedAt := chap.updatedAt })) ∧
        (frm = .absent →
          m.updatedChapters =
            chaps.map (fun chap =>
              { sourceId := chap.oid
                name := u.trimSpaces chap.name
                url := "https://mangarock.com/manga/" ++ data.oid ++ "/chapter/" ++ chap.oid
                updatedAt := chap.updatedAt })) ∧
        (m.updatedChapters.map (fun c => c.sourceId)).Sublist
          (chaps.map (fun chap => chap.oid))) ∧
      m.updatedChaptersCount = m.updatedChapters.length := by
  cases frm with
  | notDate => simp [getReleases] at h
  | absent =>
    obtain ⟨feed, hfeed, hall⟩ :=
      releasesOf_updatedChapters u json none r (by simpa [getReleases] using h)
    refine ⟨feed, hfeed, fun m hm => ?_⟩
    obtain ⟨data, hd, h1, h2, h3, h4⟩ := hall m hm
    refine ⟨data, hd, h1, h2, fun chaps hc => ?_, h4⟩
    obtain ⟨_, h6, h7⟩ := h3 chaps hc
    exact ⟨fun d hd => (by cases hd), fun _ => h6 rfl, h7⟩
  | date d =>
    obtain ⟨feed, hfeed, hall⟩ :=
      releasesOf_updatedChapters u json (some d) r (by simpa [getReleases] using h)
    refine ⟨feed, hfeed, fun m hm => ?_⟩
    obtain ⟨data, hd, h1, h2, h3, h4⟩ := hall m hm
    refine ⟨data, hd, h1, h2, fun chaps hc => ?_, h4⟩
    obtain ⟨h5, _, h7⟩ := h3 chaps hc
    refine ⟨fun d2 hd2 => ?_, fun hc2 => (by cases hc2), h7⟩
    injection hd2 with hd2
    subst hd2
    exact h5 d rfl

theorem sample_updatedChapters :
    (releasesLoop plainUtils (some (some 10)) sortedFeed).map
        (fun m => (m.sourceId, m.updatedChapters.map (fun c => (c.sourceId, c.updatedAt)),
          m.updatedChaptersCount)) =
      [("b", [("b2", some 20)], 1)] := by
  decide

theorem getReleases_updatedChapters_witness :
    getReleases plainUtils { code := 0, data := some sortedFeed } (.date (some 10)) =
      .ok (releasesLoop plainUtils (some (some 10)) sortedFeed) ∧
    (releasesLoop plainUtils (some (some 10)) sortedFeed).map
        (fun m => (m.sourceId, m.updatedChapters.map (fun c => (c.sourceId, c.updatedAt)),
          m.updatedChaptersCount)) =
      [("b", [("b2", some 20)], 1)] ∧
    ∃ feed, (Response.mk 0 (some sortedFeed)).data = some feed ∧
      ∀ m ∈ releasesLoop plainUtils (some (some 10)) sortedFeed, ∃ data ∈ feed,
      m.sourceId = data.oid ∧
      (data.new_chapters = none → m.updatedChapters = []) ∧
      (∀ chaps : List FeedChapter, data.new_chapters = some chaps →
        (∀ d, FromArg.date (some 10) = .date d →
          m.updatedChapters =
            (chaps.filter (fun chap => dateGe chap.updatedAt d)).map (fun chap =>
              { sourceId := chap.oid
                name := plainUtils.trimSpaces chap.name
                url := "https://mangarock.com/manga/" ++ data.oid ++ "/chapter/" ++ chap.oid
                updatedAt := chap.updatedAt })) ∧
        (FromArg.date (some 10) = .absent →
          m.updatedChapters =
            chaps.map (fun chap =>
              { sourceId := chap.oid
                name := plainUtils.trimSpaces chap.name
                url := "https://mangarock.com/manga/" ++ data.oid ++ "/chapter/" ++ chap.oid
                updatedAt := chap.updatedAt })) ∧
        (m.updatedChapters.map (fun c => c.sourceId)).Sublist
          (chaps.map (fun chap => chap.oid))) ∧
      m.updatedChaptersCount = m.updatedChapters.length :=
  ⟨getReleases_date_ok plainUtils sortedFeed (some 10), sample_updatedChapters,
    getReleases_updatedChapters plainUtils { code := 0, data := some sortedFeed }
      (.date (some 10)) (releasesLoop plainUtils (some (some 10)) sortedFeed)
      (getReleases_date_ok plainUtils sortedFeed (some 10))⟩

/-! ## Properties of the chapter numbering -/

theorem numberLoop_cons (u : Utils) (mangaName : JsStr) (seen : List ℚ) (chap : Chapter)
    (rest : List Chapter) :
    numberLoop u mangaName seen (chap :: rest) =
      if 0 ≤ u.parseChapterNumber chap.name mangaName ∧
          u.parseChapterNumber chap.name mangaName ∈ seen then
        ({ chap with number := some (u.parseChapterNumber chap.name mangaName) } :: rest, true)
      else
        ({ chap with number := some (u.parseChapterNumber chap.name mangaName) } ::
            (numberLoop u mangaName (u.parseChapterNumber chap.name mangaName :: seen) rest).1,
          (numberLoop u mangaName (u.parseChapterNumber chap.name mangaName :: seen) rest).2) :=
  rfl

theorem numberChapters_eq (u : Utils) (mangaName : JsStr) (cs : List Chapter) :
    numberChapters u mangaName cs =
      if (numberLoop u mangaName [] cs).2 then
        (numberLoop u mangaName [] cs).1.map (fun chap => { chap with number := some (-1) })
      else (numberLoop u mangaName [] cs).1 :=
  rfl

theorem numberLoop_erase (u : Utils) (mangaName : JsStr) (seen : List ℚ) (cs : List Chapter) :
    (numberLoop u mangaName seen cs).1.map (fun c => { c with number := none }) =
      cs.map (fun c => { c with number := none }) := by
  induction cs generalizing seen with
  | nil => rfl
  | cons chap rest ih =>
    rw [numberLoop_cons]
    split
    · simp
    · simp [ih]

theorem numberLoop_flag (u : Utils) (mangaName : JsStr) (seen : List ℚ) (cs : List Chapter) :
    (numberLoop u mangaName seen cs).2 = false ↔
      (∀ c ∈ cs, 0 ≤ u.parseChapterNumber c.name mangaName →
        u.parseChapterNumber c.name mangaName ∉ seen) ∧
      cs.Pairwise (fun a b => 0 ≤ u.parseChapterNumber a.name mangaName →
        u.parseChapterNumber a.name mangaName ≠ u.parseChapterNumber b.name mangaName) := by
  induction cs generalizing seen with
  | nil => simp [numberLoop]
  | cons chap rest ih =>
    rw [numberLoop_cons]
    split
    · rename_i hdup
      simp only [Bool.true_eq_false, false_iff, not_and]
      intro hall
      exact absurd hdup.2 (hall chap (List.mem_cons_self _ _) hdup.1)
    · rename_i hnodup
      simp only [ih, List.mem_cons, List.pairwise_cons, forall_eq_or_imp]
      constructor
      · rintro ⟨h1, h2⟩
        refine ⟨⟨fun h0 hmem => hnodup ⟨h0, hmem⟩, fun c hc h0 hmem => ?_⟩,
          fun c hc h0 heq => ?_, h2⟩
        · exact h1 c hc h0 (Or.inr hmem)
        · have h0c : 0 ≤ u.parseChapterNumber c.name mangaName := heq ▸ h0
          exact h1 c hc h0c (Or.inl heq.symm)
      · rintro ⟨⟨_, h1⟩, h2, h3⟩
        refine ⟨fun c hc h0 hmem => ?_, h3⟩
        rcases hmem with heq | hmem
        · have h0c : 0 ≤ u.parseChapterNumber chap.name mangaName := heq ▸ h0
          exact h2 c hc h0c heq.symm
        · exact h1 c hc h0 hmem

theorem numberLoop_clean (u : Utils) (mangaName : JsStr) (seen : List ℚ) (cs : List Chapter)
    (h : (numberLoop u mangaName seen cs).2 = false) :
    (numberLoop u mangaName seen cs).1 =
      cs.map (fun c => { c with number := some (u.parseChapterNumber c.name mangaName) }) := by
  induction cs generalizing seen with
  | nil => rfl
  | cons chap rest ih =>
    rw [numberLoop_cons] at h ⊢
    split at h
    · simp at h
    · rename_i hnodup
      simp only [hnodup, if_false, List.map_cons]
      rw [ih _ h]

theorem numberChapters_erase (u : Utils) (mangaName : JsStr) (cs : List Chapter) :
    (numberChapters u mangaName cs).map (fun c => { c with number := none }) =
      cs.map (fun c => { c with number := none }) := by
  rw [numberChapters_eq]
  split
  · rw [← numberLoop_erase u mangaName [] cs, List.map_map]
    rfl
  · exact numberLoop_erase u mangaName [] cs

theorem numberChapters_length (u : Utils) (mangaName : JsStr) (cs : List Chapter) :
    (numberChapters u mangaName cs).length = cs.length := by
  have h := congrArg List.length (numberChapters_erase u mangaName cs)
  simpa using h

theorem numberChapters_reset (u : Utils) (mangaName : JsStr) (cs : List Chapter)
    (h : ¬ cs.Pairwise (fun a b => 0 ≤ u.parseChapterNumber a.name mangaName →
        u.parseChapterNumber a.name mangaName ≠ u.parseChapterNumber b.name mangaName)) :
    ∀ c ∈ numberChapters u mangaName cs, c.number = some (-1) := by
  have hflag : (numberLoop u mangaName [] cs).2 = true := by
    by_contra hne
    rw [Bool.not_eq_true] at hne
    exact h ((numberLoop_flag u mangaName [] cs).mp hne).2
  intro c hc
  simp only [numberChapters_eq, hflag, if_true, List.mem_map] at hc
  obtain ⟨c0, _, rfl⟩ := hc
  rfl

theorem numberChapters_keep (u : Utils) (mangaName : JsStr) (cs : List Chapter)
    (h : cs.Pairwise (fun a b => 0 ≤ u.parseChapterNumber a.name mangaName →
        u.parseChapterNumber a.name mangaName ≠ u.parseChapterNumber b.name mangaName)) :
    numberChapters u mangaName cs =
      cs.map (fun c => { c with number := some (u.parseChapterNumber c.name mangaName) }) := by
  have hflag : (numberLoop u mangaName [] cs).2 = false :=
    (numberLoop_flag u mangaName [] cs).mpr ⟨fun _ _ _ hmem => by simp at hmem, h⟩
  simp only [numberChapters_eq, hflag, Bool.false_eq_true, if_false]
  exact numberLoop_clean u mangaName [] cs hflag

/-! ## Properties of the chapter list -/

theorem mapChapters_ids (u : Utils) (now : ℚ) (oid : JsStr) (k : Nat) (cs : List RawChapter) :
    (mapChapters u now oid k cs).map (fun c => c.sourceId) = cs.map (fun c => c.oid) := by
  induction cs generalizing k with
  | nil => rfl
  | cons c rest ih => simp [mapChapters, ih]

theorem mapChapters_index (u : Utils) (now : ℚ) (oid : JsStr) (k : Nat) (cs : List RawChapter) :
    (mapChapters u now oid k cs).map (fun c => c.index) = List.range' k cs.length := by
  induction cs generalizing k with
  | nil => rfl
  | cons c rest ih => simp [mapChapters, ih, List.range'_succ]

theorem mapChapters_dates (u : Utils) (now : ℚ) (oid : JsStr) (k : Nat) (cs : List RawChapter) :
    (mapChapters u now oid k cs).map (fun c => (c.sourceId, c.updatedAt)) =
      cs.map (fun c => (c.oid, releaseDate now c.last_updated)) := by
  induction cs generalizing k with
  | nil => rfl
  | cons c rest ih => simp [mapChapters, ih]

theorem mapChapters_names (u : Utils) (now : ℚ) (oid : JsStr) (k : Nat) (cs : List RawChapter) :
    (mapChapters u now oid k cs).map (fun c => c.name) = cs.map (fun c => u.trimSpaces c.name) := by
  induction cs generalizing k with
  | nil => rfl
  | cons c rest ih => simp [mapChapters, ih]

theorem sortChapters_perm (cs : List RawChapter) : (sortChapters cs).Perm cs :=
  List.perm_insertionSort _ cs

theorem sortChapters_sorted (cs : List RawChapter) :
    (sortChapters cs).Sorted (fun a b => a.order ≤ b.order) := by
  haveI : IsTotal RawChapter (fun a b => a.order ≤ b.order) := ⟨fun a b => le_total a.order b.order⟩
  haveI : IsTrans RawChapter (fun a b => a.order ≤ b.order) :=
    ⟨fun a b c hab hbc => le_trans hab hbc⟩
  exact List.sorted_insertionSort _ cs

theorem mangaChapters_some (u : Utils) (now : ℚ) (oid : JsStr) (cs : List RawChapter) :
    mangaChapters u now oid (some { chapters := some cs }) =
      mapChapters u now oid 0 (sortChapters cs) :=
  rfl

/-- A projection that does not read `number` is unchanged by the numbering. -/
theorem numberChapters_map {β : Type} (u : Utils) (mangaName : JsStr) (cs : List Chapter)
    (p : Chapter → β) (hp : ∀ c : Chapter, p { c with number := none } = p c) :
    (numberChapters u mangaName cs).map p = cs.map p := by
  have h := congrArg (List.map p) (numberChapters_erase u mangaName cs)
  simpa [List.map_map, Function.comp_def, hp] using h

theorem distinct_symm {α : Type} (num : α → ℚ) (a b : α) (h : 0 ≤ num a → num a ≠ num b) :
    0 ≤ num b → num b ≠ num a := by
  intro h0 heq
  exact h (heq ▸ h0) heq.symm

theorem pairwise_names (u : Utils) (now : ℚ) (oid : JsStr) (mangaName : JsStr)
    (cs : List RawChapter) :
    (mapChapters u now oid 0 (sortChapters cs)).Pairwise
        (fun a b => 0 ≤ u.parseChapterNumber a.name mangaName →
          u.parseChapterNumber a.name mangaName ≠ u.parseChapterNumber b.name mangaName) ↔
      cs.Pairwise (fun a b => 0 ≤ u.parseChapterNumber (u.trimSpaces a.name) mangaName →
        u.parseChapterNumber (u.trimSpaces a.name) mangaName ≠
          u.parseChapterNumber (u.trimSpaces b.name) mangaName) := by
  have h1 := List.pairwise_map (f := fun c : Chapter => c.name)
    (R := fun x y => 0 ≤ u.parseChapterNumber x mangaName →
      u.parseChapterNumber x mangaName ≠ u.parseChapterNumber y mangaName)
    (l := mapChapters u now oid 0 (sortChapters cs))
  have h2 := List.pairwise_map (f := fun c : RawChapter => u.trimSpaces c.name)
    (R := fun x y => 0 ≤ u.parseChapterNumber x mangaName →
      u.parseChapterNumber x mangaName ≠ u.parseChapterNumber y mangaName)
    (l := sortChapters cs)
  rw [← h1, mapChapters_names, h2]
  exact List.Perm.pairwise_iff
    (fun {a b} h => distinct_symm (fun c => u.parseChapterNumber (u.trimSpaces c.name) mangaName)
      a b h)
    (sortChapters_perm cs)

theorem pairwise_iff_index {α : Type} (num : α → ℚ) (l : List α) :
    l.Pairwise (fun a b => 0 ≤ num a → num a ≠ num b) ↔
      ∀ i j : Fin l.length, i ≠ j → 0 ≤ num (l.get i) → num (l.get i) ≠ num (l.get j) := by
  rw [List.pairwise_iff_get]
  constructor
  · intro h i j hij
    rcases lt_or_gt_of_ne hij with hlt | hgt
    · exact h i j hlt
    · exact distinct_symm num _ _ (h j i hgt)
  · intro h i j hij
    exact h i j (ne_of_lt hij)

/-! ## Properties of `getManga` -/

theorem getManga_ok (u : Utils) (post : DetailServer) (metaPost : MetaServer) (now : ℚ)
    (id : String) (m : Manga) (h : getManga u post metaPost now id = .ok m) :
    id ≠ "" ∧ (post id).code = 0 ∧ ∃ data detail, (post id).data = some data ∧
      data.lookup id = some detail ∧ parseManga u metaPost now detail = .ok m := by
  unfold getManga at h
  split at h
  · cases h
  · rename_i hid
    dsimp only at h
    split at h
    · cases h
    · rename_i hcode
      split at h
      · cases h
      · rename_i data hdata
        split at h
        · cases h
        · rename_i detail hdetail
          exact ⟨hid, not_not.mp hcode, data, detail, hdata, hdetail, h⟩

theorem parseManga_ok (u : Utils) (metaPost : MetaServer) (now : ℚ) (detail : MangaDetail)
    (m : Manga) (h : parseManga u metaPost now detail = .ok m) :
    m.name = u.trimSpaces (basicInfoOf detail).name ∧
    m.updatedAt = releaseDate now (defaultInfoOf detail).last_updated ∧
    m.chapters = numberChapters u (u.trimSpaces (basicInfoOf detail).name)
      (mangaChapters u now (defaultInfoOf detail).oid detail.chapters) ∧
    m.chaptersCount = m.chapters.length ∧
    mangaAuthors u metaPost detail.author = .ok m.authors ∧
    detail.artworks ≠ none := by
  unfold parseManga at h
  dsimp only at h
  split at h
  · cases h
  · rename_i artworks hart
    split at h
    · cases h
    · split at h
      · cases h
      · split at h
        · cases h
        · rename_i authors hauth
          injection h with h
          subst h
          exact ⟨rfl, rfl, rfl, rfl, hauth, by simp [hart]⟩

theorem getManga_chapters (u : Utils) (post : DetailServer) (metaPost : MetaServer) (now : ℚ)
    (id : String) (m : Manga) (data : List (String × MangaDetail)) (detail : MangaDetail)
    (hdata : (post id).data = some data) (hdetail : data.lookup id = some detail)
    (h : getManga u post metaPost now id = .ok m) :
    m.name = u.trimSpaces (basicInfoOf detail).name ∧
    m.updatedAt = releaseDate now (defaultInfoOf detail).last_updated ∧
    m.chapters = numberChapters u m.name
      (mangaChapters u now (defaultInfoOf detail).oid detail.chapters) := by
  obtain ⟨_, _, data2, detail2, hdata2, hdetail2, hparse⟩ := getManga_ok u post metaPost now id m h
  rw [hdata] at hdata2
  injection hdata2 with hdata2
  subst hdata2
  rw [hdetail] at hdetail2
  injection hdetail2 with hdetail2
  subst hdetail2
  obtain ⟨h1, h2, h3, _⟩ := parseManga_ok u metaPost now detail m hparse
  exact ⟨h1, h2, by rw [h1]; exact h3⟩

theorem sample_reading :
    getManga readingUtils samplePost sampleMeta sampleNow "m1" = .ok (sampleManga 1 (-1) (-1)) := by
  rfl

theorem sample_constant :
    getManga constantUtils samplePost sampleMeta sampleNow "m1" =
      .ok (sampleManga (-1) (-1) (-1)) := by
  rfl

theorem sample_data : (samplePost "m1").data = some [("m1", sampleDetail)] := rfl

theorem sample_lookup : List.lookup "m1" [("m1", sampleDetail)] = some sampleDetail := by
  rfl

theorem sample_chapters : sampleDetail.chapters = some { chapters := some sampleChapters } := rfl

/-- C1: when the chapters section holds a list of chapters, the chapters of the returned
manga are that list rearranged in non-decreasing `order` (same sourceIds, same length), and
the chapter at position `i` has `index = i`. -/
theorem getManga_chapters_ordered (u : Utils) (post : DetailServer) (metaPost : MetaServer)
    (now : ℚ) (id : String) (m : Manga) (data : List (String × MangaDetail))
    (detail : MangaDetail) (chapters : List RawChapter)
    (hdata : (post id).data = some data) (hdetail : data.lookup id = some detail)
    (hchap : detail.chapters = some { chapters := some chapters })
    (h : getManga u post metaPost now id = .ok m) :
    (∃ sorted : List RawChapter, sorted.Perm chapters ∧
      sorted.Sorted (fun a b => a.order ≤ b.order) ∧
      m.chapters.map (fun c => c.sourceId) = sorted.map (fun c => c.oid)) ∧
    (m.chapters.map (fun c => c.sourceId)).Perm (chapters.map (fun c => c.oid)) ∧
    m.chapters.length = chapters.length ∧
    m.chapters.map (fun c => c.index) = List.range chapters.length ∧
    ∀ (i : Nat) (hi : i < m.chapters.length), (m.chapters.get ⟨i, hi⟩).index = i := by
  obtain ⟨_, _, hch⟩ := getManga_chapters u post metaPost now id m data detail hdata hdetail h
  rw [hchap, mangaChapters_some] at hch
  have hids : m.chapters.map (fun c => c.sourceId) =
      (sortChapters chapters).map (fun c => c.oid) := by
    rw [hch, numberChapters_map u _ _ (fun c => c.sourceId) (fun _ => rfl), mapChapters_ids]
  have hlen : m.chapters.length = chapters.length := by
    have h1 := congrArg List.length hids
    simpa [(sortChapters_perm chapters).length_eq] using h1
  have hidx : m.chapters.map (fun c => c.index) = List.range chapters.length := by
    rw [hch, numberChapters_map u _ _ (fun c => c.index) (fun _ => rfl), mapChapters_index,
      (sortChapters_perm chapters).length_eq, List.range_eq_range']
  refine ⟨⟨sortChapters chapters, sortChapters_perm chapters, sortChapters_sorted chapters, hids⟩,
    ?_, hlen, hidx, ?_⟩
  · rw [hids]
    exact (sortChapters_perm chapters).map _
  · intro i hi
    have h1 : (m.chapters.map (fun c => c.index))[i]? = (List.range chapters.length)[i]? := by
      rw [hidx]
    have hi2 : i < chapters.length := hlen ▸ hi
    rw [List.getElem?_map, List.getElem?_range hi2, List.getElem?_eq_getElem hi] at h1
    simpa using h1

theorem getManga_chapters_ordered_witness :
    (samplePost "m1").data = some [("m1", sampleDetail)] ∧
    List.lookup "m1" [("m1", sampleDetail)] = some sampleDetail ∧
    sampleDetail.chapters = some { chapters := some sampleChapters } ∧
    getManga readingUtils samplePost sampleMeta sampleNow "m1" = .ok (sampleManga 1 (-1) (-1)) ∧
    (∃ sorted : List RawChapter, sorted.Perm sampleChapters ∧
      sorted.Sorted (fun a b => a.order ≤ b.order) ∧
      (sampleManga 1 (-1) (-1)).chapters.map (fun c => c.sourceId) =
        sorted.map (fun c => c.oid)) ∧
    ((sampleManga 1 (-1) (-1)).chapters.map (fun c => c.sourceId)).Perm
      (sampleChapters.map (fun c => c.oid)) ∧
    (sampleManga 1 (-1) (-1)).chapters.length = sampleChapters.length ∧
    (sampleManga 1 (-1) (-1)).chapters.map (fun c => c.index) =
      List.range sampleChapters.length ∧
    ∀ (i : Nat) (hi : i < (sampleManga 1 (-1) (-1)).chapters.length),
      ((sampleManga 1 (-1) (-1)).chapters.get ⟨i, hi⟩).index = i :=
  ⟨sample_data, sample_lookup, sample_chapters, sample_reading,
    getManga_chapters_ordered readingUtils samplePost sampleMeta sampleNow "m1"
      (sampleManga 1 (-1) (-1)) [("m1", sampleDetail)] sampleDetail sampleChapters
      sample_data sample_lookup sample_chapters sample_reading⟩

/-- C2: when two distinct chapters of the list have the same parsed chapter number and that
number is `>= 0`, every chapter of the returned manga has `number = -1`. -/
theorem getManga_duplicate_numbers (u : Utils) (post : DetailServer) (metaPost : MetaServer)
    (now : ℚ) (id : String) (m : Manga) (data : List (String × MangaDetail))
    (detail : MangaDetail) (chapters : List RawChapter)
    (hdata : (post id).data = some data) (hdetail : data.lookup id = some detail)
    (hchap : detail.chapters = some { chapters := some chapters })
    (h : getManga u post metaPost now id = .ok m)
    (hdup : ∃ i j : Fin chapters.length, i ≠ j ∧
      0 ≤ u.parseChapterNumber (u.trimSpaces (chapters.get i).name) m.name ∧
      u.parseChapterNumber (u.trimSpaces (chapters.get i).name) m.name =
        u.parseChapterNumber (u.trimSpaces (chapters.get j).name) m.name) :
    ∀ c ∈ m.chapters, c.number = some (-1) := by
  obtain ⟨_, _, hch⟩ := getManga_chapters u post metaPost now id m data detail hdata hdetail h
  rw [hchap, mangaChapters_some] at hch
  rw [hch]
  apply numberChapters_reset
  rw [pairwise_names,
    pairwise_iff_index (fun c : RawChapter => u.parseChapterNumber (u.trimSpaces c.name) m.name)]
  intro hall
  obtain ⟨i, j, hij, h0, heq⟩ := hdup
  exact hall i j hij h0 heq

theorem getManga_duplicate_numbers_witness :
    (samplePost "m1").data = some [("m1", sampleDetail)] ∧
    List.lookup "m1" [("m1", sampleDetail)] = some sampleDetail ∧
    sampleDetail.chapters = some { chapters := some sampleChapters } ∧
    getManga constantUtils samplePost sampleMeta sampleNow "m1" =
      .ok (sampleManga (-1) (-1) (-1)) ∧
    ∀ c ∈ (sampleManga (-1) (-1) (-1)).chapters, c.number = some (-1) :=
  ⟨sample_data, sample_lookup, sample_chapters, sample_constant,
    getManga_duplicate_numbers constantUtils samplePost sampleMeta sampleNow "m1"
      (sampleManga (-1) (-1) (-1)) [("m1", sampleDetail)] sampleDetail sampleChapters
      sample_data sample_lookup sample_chapters sample_constant
      ⟨⟨0, by decide⟩, ⟨1, by decide⟩, by decide, by decide, rfl⟩⟩

/-- C6: when the parsed chapter numbers that are `>= 0` are pairwise distinct, every chapter
of the returned manga keeps `number = parseChapterNumber(its name, manga name)`; chapters
sharing a negative number do not cause a reset. -/
theorem getManga_distinct_numbers (u : Utils) (post : DetailServer) (metaPost : MetaServer)
    (now : ℚ) (id : String) (m : Manga) (data : List (String × MangaDetail))
    (detail : MangaDetail) (chapters : List RawChapter)
    (hdata : (post id).data = some data) (hdetail : data.lookup id = some detail)
    (hchap : detail.chapters = some { chapters := some chapters })
    (h : getManga u post metaPost now id = .ok m)
    (hdistinct : ∀ i j : Fin chapters.length, i ≠ j →
      0 ≤ u.parseChapterNumber (u.trimSpaces (chapters.get i).name) m.name →
      u.parseChapterNumber (u.trimSpaces (chapters.get i).name) m.name ≠
        u.parseChapterNumber (u.trimSpaces (chapters.get j).name) m.name) :
    (∀ c ∈ m.chapters, c.number = some (u.parseChapterNumber c.name m.name)) ∧
    m.chapters.map (fun c => (c.sourceId, c.number)) =
      (sortChapters chapters).map
        (fun c => (c.oid, some (u.parseChapterNumber (u.trimSpaces c.name) m.name))) := by
  obtain ⟨_, _, hch⟩ := getManga_chapters u post metaPost now id m data detail hdata hdetail h
  rw [hchap, mangaChapters_some] at hch
  have hpw := (pairwise_names u now (defaultInfoOf detail).oid m.name chapters).mpr
    ((pairwise_iff_index
      (fun c : RawChapter => u.parseChapterNumber (u.trimSpaces c.name) m.name) chapters).mpr
      hdistinct)
  have hkeep := numberChapters_keep u m.name _ hpw
  rw [hkeep] at hch
  constructor
  · intro c hc
    rw [hch, List.mem_map] at hc
    obtain ⟨c0, _, rfl⟩ := hc
    rfl
  · rw [hch, List.map_map]
    generalize sortChapters chapters = cs
    generalize (0 : Nat) = k
    induction cs generalizing k with
    | nil => rfl
    | cons c rest ih => simp [mapChapters, ih]

theorem getManga_distinct_numbers_witness :
    (samplePost "m1").data = some [("m1", sampleDetail)] ∧
    List.lookup "m1" [("m1", sampleDetail)] = some sampleDetail ∧
    sampleDetail.chapters = some { chapters := some sampleChapters } ∧
    getManga readingUtils samplePost sampleMeta sampleNow "m1" = .ok (sampleManga 1 (-1) (-1)) ∧
    (∀ c ∈ (sampleManga 1 (-1) (-1)).chapters,
      c.number = some (readingUtils.parseChapterNumber c.name (sampleManga 1 (-1) (-1)).name)) ∧
    (sampleManga 1 (-1) (-1)).chapters.map (fun c => (c.sourceId, c.number)) =
      (sortChapters sampleChapters).map
        (fun c => (c.oid, some (readingUtils.parseChapterNumber
          (readingUtils.trimSpaces c.name) (sampleManga 1 (-1) (-1)).name))) :=
  ⟨sample_data, sample_lookup, sample_chapters, sample_reading,
    getManga_distinct_numbers readingUtils samplePost sampleMeta sampleNow "m1"
      (sampleManga 1 (-1) (-1)) [("m1", sampleDetail)] sampleDetail sampleChapters
      sample_data sample_lookup sample_chapters sample_reading (by decide)⟩

theorem newDate_inside (v : Int) (hlo : -8640000000000000 ≤ v) (hhi : v ≤ 8640000000000000) :
    newDate v = some v := by
  simp [newDate, maxTime, hlo, hhi]

theorem newDate_outside (v : Int) (h : v < -8640000000000000 ∨ 8640000000000000 < v) :
    newDate v = none := by
  have hn : ¬ (-8640000000000000 ≤ v ∧ v ≤ 8640000000000000) := by omega
  simp only [newDate, maxTime]
  rw [if_neg hn]

theorem releaseDate_some (now : ℚ) (t : Int) :
    releaseDate now (some t) = newDate (if (t : ℚ) < now then t * 1000 else t) := by
  simp only [releaseDate]
  split <;> rfl

theorem releaseDate_eq_bind (now : ℚ) (t : Option Int) :
    releaseDate now t =
      t.bind (fun t : Int => newDate (if (t : ℚ) < now then t * 1000 else t)) := by
  cases t with
  | none => rfl
  | some t => exact releaseDate_some now t

/-- C3, as stated, fails: the timestamp `9000000000000000` is not below the clock reading,
so it is taken as milliseconds, but it lies outside the range of time values and the
returned `updatedAt` is `Invalid Date`, not the date of `t` milliseconds. -/
theorem getManga_release_dates_counterexample :
    sampleNow ≤ ((9000000000000000 : Int) : ℚ) ∧
    farFutureDetail.default = some { oid := some "m1", last_updated := some 9000000000000000 } ∧
    ∃ m, getManga readingUtils farFuturePost sampleMeta sampleNow "m1" = .ok m ∧
      m.updatedAt = none ∧ m.updatedAt ≠ some 9000000000000000 := by
  refine ⟨by norm_num [sampleNow], rfl,
    { sampleManga 1 (-1) (-1) with updatedAt := none }, rfl, rfl, ?_⟩
  intro hc
  cases hc

/-- C3, amended: a timestamp `t` read against the clock `now` (in seconds) gives the date
built from `t * 1000` milliseconds when `t < now` and from `t` milliseconds when
`t >= now`; that date has this time value when the value lies within 8.64e15 milliseconds
of the epoch and is `Invalid Date` otherwise.  The returned manga's `updatedAt` is obtained
so from `default.last_updated` and each chapter's `updatedAt` from its `last_updated`, all
against the same `now`. -/
theorem getManga_release_dates (u : Utils) (post : DetailServer) (metaPost : MetaServer)
    (now : ℚ) (id : String) (m : Manga) (data : List (String × MangaDetail))
    (detail : MangaDetail)
    (hdata : (post id).data = some data) (hdetail : data.lookup id = some detail)
    (h : getManga u post metaPost now id = .ok m) :
    (∀ v : Int, -8640000000000000 ≤ v → v ≤ 8640000000000000 → newDate v = some v) ∧
    (∀ v : Int, v < -8640000000000000 ∨ 8640000000000000 < v → newDate v = none) ∧
    (∀ t : Int, (t : ℚ) < now → releaseDate now (some t) = newDate (t * 1000)) ∧
    (∀ t : Int, now ≤ (t : ℚ) → releaseDate now (some t) = newDate t) ∧
    (∀ (d : DefaultInfo) (t v : Int), detail.default = some d → d.last_updated = some t →
      v = (if (t : ℚ) < now then t * 1000 else t) →
      (-8640000000000000 ≤ v → v ≤ 8640000000000000 → m.updatedAt = some v) ∧
      (v < -8640000000000000 ∨ 8640000000000000 < v → m.updatedAt = none)) ∧
    (∀ chapters : List RawChapter, detail.chapters = some { chapters := some chapters } →
      m.chapters.map (fun c => (c.sourceId, c.updatedAt)) =
        (sortChapters chapters).map (fun c =>
          (c.oid, c.last_updated.bind
            (fun t : Int => newDate (if (t : ℚ) < now then t * 1000 else t))))) := by
  obtain ⟨_, hupd, hch⟩ :=
    getManga_chapters u post metaPost now id m data detail hdata hdetail h
  refine ⟨newDate_inside, newDate_outside, ?_, ?_, ?_, ?_⟩
  · intro t ht
    rw [releaseDate_some, if_pos ht]
  · intro t ht
    rw [releaseDate_some, if_neg (not_lt.mpr ht)]
  · intro d t v hd ht hv
    have hm : m.updatedAt = newDate v := by
      rw [hupd, hv, ← releaseDate_some]
      simp [defaultInfoOf, hd, ht]
    exact ⟨fun h1 h2 => by rw [hm]; exact newDate_inside v h1 h2,
      fun h1 => by rw [hm]; exact newDate_outside v h1⟩
  · intro chapters hchap
    rw [hchap, mangaChapters_some] at hch
    rw [hch, numberChapters_map u _ _ (fun c => (c.sourceId, c.updatedAt)) (fun _ => rfl),
      mapChapters_dates]
    simp only [releaseDate_eq_bind]

theorem getManga_release_dates_witness :
    (samplePost "m1").data = some [("m1", sampleDetail)] ∧
    List.lookup "m1" [("m1", sampleDetail)] = some sampleDetail ∧
    getManga readingUtils samplePost sampleMeta sampleNow "m1" = .ok (sampleManga 1 (-1) (-1)) ∧
    (∀ v : Int, -8640000000000000 ≤ v → v ≤ 8640000000000000 → newDate v = some v) ∧
    (∀ v : Int, v < -8640000000000000 ∨ 8640000000000000 < v → newDate v = none) ∧
    (∀ t : Int, (t : ℚ) < sampleNow → releaseDate sampleNow (some t) = newDate (t * 1000)) ∧
    (∀ t : Int, sampleNow ≤ (t : ℚ) → releaseDate sampleNow (some t) = newDate t) ∧
    (∀ (d : DefaultInfo) (t v : Int), sampleDetail.default = some d →
      d.last_updated = some t → v = (if (t : ℚ) < sampleNow then t * 1000 else t) →
      (-8640000000000000 ≤ v → v ≤ 8640000000000000 →
        (sampleManga 1 (-1) (-1)).updatedAt = some v) ∧
      (v < -8640000000000000 ∨ 8640000000000000 < v →
        (sampleManga 1 (-1) (-1)).updatedAt = none)) ∧
    (∀ chapters : List RawChapter, sampleDetail.chapters = some { chapters := some chapters } →
      (sampleManga 1 (-1) (-1)).chapters.map (fun c => (c.sourceId, c.updatedAt)) =
        (sortChapters chapters).map (fun c =>
          (c.oid, c.last_updated.bind
            (fun t : Int => newDate (if (t : ℚ) < sampleNow then t * 1000 else t))))) :=
  ⟨sample_data, sample_lookup, sample_reading,
    getManga_release_dates readingUtils samplePost sampleMeta sampleNow "m1"
      (sampleManga 1 (-1) (-1)) [("m1", sampleDetail)] sampleDetail
      sample_data sample_lookup sample_reading⟩

/-- C9: for a whole-second instant `s` with `now / 1000 <= s < now`, the timestamp `s`
(second precision) and the timestamp `s * 1000` (millisecond precision) give the same
date, the one built from `s * 1000` milliseconds; for a clock reading `now`, which is
within 8.64e12 seconds of the epoch, that date has the time value `s * 1000`. -/
theorem releaseDate_precision_independent (now : ℚ) (s : Int)
    (hlo : now / 1000 ≤ (s : ℚ)) (hhi : (s : ℚ) < now) :
    releaseDate now (some s) = releaseDate now (some (s * 1000)) ∧
    releaseDate now (some s) = newDate (s * 1000) ∧
    (-8640000000000 ≤ now → now ≤ 8640000000000 →
      releaseDate now (some s) = some (s * 1000) ∧
      releaseDate now (some (s * 1000)) = some (s * 1000)) := by
  have h1 : now ≤ ((s * 1000 : Int) : ℚ) := by
    push_cast
    have h2 : now / 1000 * 1000 ≤ (s : ℚ) * 1000 :=
      mul_le_mul_of_nonneg_right hlo (by norm_num)
    have h3 : now / 1000 * 1000 = now := by ring
    rw [h3] at h2
    exact h2
  have hsec : releaseDate now (some s) = newDate (s * 1000) := by
    rw [releaseDate_some, if_pos hhi]
  have hms : releaseDate now (some (s * 1000)) = newDate (s * 1000) := by
    rw [releaseDate_some, if_neg (not_lt.mpr h1)]
  refine ⟨by rw [hsec, hms], hsec, ?_⟩
  intro hclo hchi
  have hs1 : (s : ℚ) < 8640000000000 := lt_of_lt_of_le hhi hchi
  have hs2 : (-8640000000 : ℚ) ≤ (s : ℚ) := by linarith
  have hs3 : s < 8640000000000 := by exact_mod_cast hs1
  have hs4 : -8640000000 ≤ s := by exact_mod_cast hs2
  have hin : newDate (s * 1000) = some (s * 1000) :=
    newDate_inside (s * 1000) (by omega) (by omega)
  exact ⟨by rw [hsec, hin], by rw [hms, hin]⟩

theorem releaseDate_precision_independent_witness :
    sampleNow / 1000 ≤ ((1400000000 : Int) : ℚ) ∧ ((1400000000 : Int) : ℚ) < sampleNow ∧
    releaseDate sampleNow (some 1400000000) = releaseDate sampleNow (some (1400000000 * 1000)) ∧
    releaseDate sampleNow (some 1400000000) = some (1400000000 * 1000) ∧
    releaseDate sampleNow (some (1400000000 * 1000)) = some (1400000000 * 1000) :=
  ⟨by norm_num [sampleNow], by norm_num [sampleNow],
    (releaseDate_precision_independent sampleNow 1400000000 (by norm_num [sampleNow])
      (by norm_num [sampleNow])).1,
    (releaseDate_precision_independent sampleNow 1400000000 (by norm_num [sampleNow])
      (by norm_num [sampleNow])).2.2 (by norm_num [sampleNow]) (by norm_num [sampleNow])⟩

/-! ## The status-code convention -/

theorem metaLookup_rejected {β : Type} (label : String) (post : MetaServer) (f : MetaEntry → β)
    (ids : IdsArg)
    (h : ∀ l, ids = .array l → (post l).code ≠ 0 ∨ (post l).data = none) :
    ∃ e, metaLookup label post f ids = .error e := by
  cases ids with
  | notArray => exact ⟨_, rfl⟩
  | array l =>
    unfold metaLookup
    dsimp only
    split
    · exact ⟨_, rfl⟩
    · rename_i hcode
      rcases h l rfl with hc | hd
      · exact absurd hc hcode
      · rw [hd]
        exact ⟨_, rfl⟩

theorem releasesOf_rejected (u : Utils) (json : Response (List FeedEntry)) (frm : Option JsDate)
    (h : json.code ≠ 0 ∨ json.data = none) : ∃ e, releasesOf u json frm = .error e := by
  unfold releasesOf
  split
  · exact ⟨_, rfl⟩
  · rename_i hcode
    rcases h with hc | hd
    · exact absurd hc hcode
    · rw [hd]
      exact ⟨_, rfl⟩

theorem getManga_rejected (u : Utils) (post : DetailServer) (metaPost : MetaServer) (now : ℚ)
    (id : String)
    (h : (post id).code ≠ 0 ∨ (post id).data = none ∨
      ∃ data, (post id).data = some data ∧ data.lookup id = none) :
    ∃ e, getManga u post metaPost now id = .error e := by
  by_contra hne
  have hok : ∃ m, getManga u post metaPost now id = .ok m := by
    cases hres : getManga u post metaPost now id with
    | error e => exact absurd ⟨e, hres⟩ hne
    | ok m => exact ⟨m, rfl⟩
  obtain ⟨m, hm⟩ := hok
  obtain ⟨_, hcode, data, detail, hdata, hdetail, _⟩ := getManga_ok u post metaPost now id m hm
  rcases h with hc | hd | ⟨data2, hd2, hl2⟩
  · exact hc hcode
  · rw [hd] at hdata
    cases hdata
  · rw [hdata] at hd2
    injection hd2 with hd2
    subst hd2
    rw [hl2] at hdetail
    cases hdetail

/-- C5: each of the six operations fails with an error, and returns no result, when the
response has `code !== 0` or no `data` (for `getManga` also when `data[id]` is missing);
and `getMangasForFilters` returns the response's `data` unchanged when `code === 0` and
`data` is defined. -/
theorem status_code_convention :
    (∀ (α : Type) (post : FilterParams → Response α) (filters : Option Filters),
      (post (filterParams filters)).code ≠ 0 ∨ (post (filterParams filters)).data = none →
      ∃ e, getMangasForFilters post filters = .error e) ∧
    (∀ (α : Type) (post : FilterParams → Response α) (filters : Option Filters) (d : α),
      (post (filterParams filters)).code = 0 → (post (filterParams filters)).data = some d →
      getMangasForFilters post filters = .ok d) ∧
    (∀ (u : Utils) (post : MetaServer) (ids : List String),
      (post ids).code ≠ 0 ∨ (post ids).data = none →
      (∃ e, getMangasData u post (.array ids) = .error e) ∧
      (∃ e, getAuthorsData post (.array ids) = .error e) ∧
      (∃ e, getCategoriesData u post (.array ids) = .error e)) ∧
    (∀ (u : Utils) (json : Response (List FeedEntry)) (frm : FromArg),
      json.code ≠ 0 ∨ json.data = none → ∃ e, getReleases u json frm = .error e) ∧
    (∀ (u : Utils) (post : DetailServer) (metaPost : MetaServer) (now : ℚ) (id : String),
      ((post id).code ≠ 0 ∨ (post id).data = none ∨
        ∃ data, (post id).data = some data ∧ data.lookup id = none) →
      ∃ e, getManga u post metaPost now id = .error e) := by
  refine ⟨?_, ?_, ?_, ?_, ?_⟩
  · intro α post filters h
    unfold getMangasForFilters
    dsimp only
    split
    · exact ⟨_, rfl⟩
    · rename_i hcode
      rcases h with hc | hd
      · exact absurd hc hcode
      · rw [hd]
        exact ⟨_, rfl⟩
  · intro α post filters d hcode hdata
    unfold getMangasForFilters
    dsimp only
    rw [if_neg (not_not.mpr hcode), hdata]
  · intro u post ids h
    have hall : ∀ l, IdsArg.array ids = .array l → (post l).code ≠ 0 ∨ (post l).data = none := by
      intro l hl
      injection hl with hl
      subst hl
      exact h
    exact ⟨metaLookup_rejected _ post _ _ hall, metaLookup_rejected _ post _ _ hall,
      metaLookup_rejected _ post _ _ hall⟩
  · intro u json frm h
    cases frm with
    | notDate => exact ⟨_, rfl⟩
    | absent => exact releasesOf_rejected u json none h
    | date d => exact releasesOf_rejected u json (some d) h
  · intro u post metaPost now id h
    exact getManga_rejected u post metaPost now id h

theorem status_code_convention_witness :
    (∃ e, getMangasForFilters (fun _ => (⟨1, some 7⟩ : Response Nat)) none = .error e) ∧
    getMangasForFilters (fun _ => (⟨0, some 7⟩ : Response Nat)) none = .ok 7 ∧
    ((∃ e, getMangasData plainUtils (fun _ => ⟨0, none⟩) (.array ["a"]) = .error e) ∧
      (∃ e, getAuthorsData (fun _ => ⟨0, none⟩) (.array ["a"]) = .error e) ∧
      (∃ e, getCategoriesData plainUtils (fun _ => ⟨0, none⟩) (.array ["a"]) = .error e)) ∧
    (∃ e, getReleases plainUtils ⟨3, some sortedFeed⟩ .absent = .error e) ∧
    (∃ e, getManga plainUtils samplePost sampleMeta sampleNow "m2" = .error e) :=
  ⟨status_code_convention.1 Nat _ none (Or.inl (by decide)),
    status_code_convention.2.1 Nat _ none 7 rfl rfl,
    status_code_convention.2.2.1 plainUtils _ ["a"] (Or.inr rfl),
    status_code_convention.2.2.2.1 plainUtils _ .absent (Or.inl (by decide)),
    status_code_convention.2.2.2.2 plainUtils samplePost sampleMeta sampleNow "m2"
      (Or.inr (Or.inr ⟨_, rfl, rfl⟩))⟩

/-! ## Optional sections -/

/-- C10, at a response without the `artworks` section: the access `data.artworks.artworks`
of line 288 throws and `getManga` returns no manga, whatever the helpers, the look-ups and
the clock are. -/
theorem getManga_without_artworks (u : Utils) (metaPost : MetaServer) (now : ℚ) :
    getManga u noArtworksPost metaPost now "m1" =
      .error "TypeError: data.artworks is undefined" := by
  rfl

theorem metaLookup_answered {β : Type} (label : String) (post : MetaServer) (f : MetaEntry → β)
    (ids : List String) (hmeta : ∀ l, (post l).code = 0 ∧ (post l).data ≠ none) :
    ∃ r, metaLookup label post f (.array ids) = .ok r := by
  obtain ⟨hcode, hdata⟩ := hmeta ids
  obtain ⟨d, hd⟩ := Option.ne_none_iff_exists'.mp hdata
  refine ⟨d.map f, ?_⟩
  unfold metaLookup
  dsimp only
  rw [if_neg (not_not.mpr hcode), hd]

theorem getCategoriesData_answered (u : Utils) (post : MetaServer) (ids : List String)
    (hmeta : ∀ l, (post l).code = 0 ∧ (post l).data ≠ none) :
    ∃ r, getCategoriesData u post (.array ids) = .ok r :=
  metaLookup_answered _ post _ ids hmeta

theorem getAuthorsData_answered (post : MetaServer) (ids : List String)
    (hmeta : ∀ l, (post l).code = 0 ∧ (post l).data ≠ none) :
    ∃ r, getAuthorsData post (.array ids) = .ok r :=
  metaLookup_answered _ post _ ids hmeta

theorem mangaSummary_answered (u : Utils) (metaPost : MetaServer) (summary : Option Summary)
    (hmeta : ∀ l, (metaPost l).code = 0 ∧ (metaPost l).data ≠ none) :
    ∃ r, mangaSummary u metaPost summary = .ok r := by
  cases summary with
  | none => exact ⟨_, rfl⟩
  | some sm =>
    cases hk : sm.key_genres with
    | none =>
      simp only [mangaSummary, hk]
      exact ⟨_, rfl⟩
    | some genres =>
      obtain ⟨tags, htags⟩ := getCategoriesData_answered u metaPost genres hmeta
      simp only [mangaSummary, hk, htags]
      exact ⟨_, rfl⟩

theorem mangaTags_answered (u : Utils) (metaPost : MetaServer) (sec : Option SubGenres)
    (hmeta : ∀ l, (metaPost l).code = 0 ∧ (metaPost l).data ≠ none) :
    ∃ r, mangaTags u metaPost sec = .ok r := by
  cases sec with
  | none => exact ⟨_, rfl⟩
  | some sg =>
    cases hk : sg.sub_genres with
    | none =>
      simp only [mangaTags, hk]
      exact ⟨_, rfl⟩
    | some genres =>
      obtain ⟨tags, htags⟩ := getCategoriesData_answered u metaPost genres hmeta
      simp only [mangaTags, hk, htags]
      exact ⟨_, rfl⟩

theorem mangaAuthors_answered (u : Utils) (metaPost : MetaServer) (sec : Option AuthorSection)
    (hmeta : ∀ l, (metaPost l).code = 0 ∧ (metaPost l).data ≠ none) :
    ∃ r, mangaAuthors u metaPost sec = .ok r ∧ (sec = none → r = []) := by
  cases sec with
  | none => exact ⟨_, rfl, fun _ => rfl⟩
  | some au =>
    cases hk : au.authors with
    | none =>
      simp only [mangaAuthors, hk]
      exact ⟨_, rfl, fun hc => by cases hc⟩
    | some raw =>
      obtain ⟨authors, hauthors⟩ :=
        getAuthorsData_answered metaPost (objectKeys (authorRoles u raw)) hmeta
      simp only [mangaAuthors, hk, hauthors]
      exact ⟨_, rfl, fun hc => by cases hc⟩

/-- With the `artworks` section present and the nested look-ups answered, `getManga`
returns a manga whatever other sections are missing; an absent `chapters` section gives
`chapters = []` and `chaptersCount = 0`, an absent `author` section gives `authors = []`. -/
theorem getManga_returns_with_artworks (u : Utils) (post : DetailServer) (metaPost : MetaServer)
    (now : ℚ) (id : String) (data : List (String × MangaDetail)) (detail : MangaDetail)
    (hid : id ≠ "") (hcode : (post id).code = 0) (hdata : (post id).data = some data)
    (hdetail : data.lookup id = some detail) (hart : detail.artworks ≠ none)
    (hmeta : ∀ l, (metaPost l).code = 0 ∧ (metaPost l).data ≠ none) :
    ∃ m, getManga u post metaPost now id = .ok m ∧
      (detail.chapters = none → m.chapters = [] ∧ m.chaptersCount = 0) ∧
      (detail.author = none → m.authors = []) := by
  obtain ⟨artworks, hartworks⟩ := Option.ne_none_iff_exists'.mp hart
  obtain ⟨summary, hsummary⟩ := mangaSummary_answered u metaPost detail.summary hmeta
  obtain ⟨tags, htags⟩ := mangaTags_answered u metaPost detail.sub_genres hmeta
  obtain ⟨authors, hauthors, hnone⟩ := mangaAuthors_answered u metaPost detail.author hmeta
  have hparse : ∃ m, parseManga u metaPost now detail = .ok m ∧
      m.chapters = numberChapters u (u.trimSpaces (basicInfoOf detail).name)
        (mangaChapters u now (defaultInfoOf detail).oid detail.chapters) ∧
      m.chaptersCount = m.chapters.length ∧ m.authors = authors := by
    unfold parseManga
    dsimp only
    rw [hartworks]
    dsimp only
    rw [hsummary]
    dsimp only
    rw [htags]
    dsimp only
    rw [hauthors]
    exact ⟨_, rfl, rfl, rfl, rfl⟩
  obtain ⟨m, hm, hch, hcount, hau⟩ := hparse
  refine ⟨m, ?_, ?_, ?_⟩
  · unfold getManga
    rw [if_neg hid]
    dsimp only
    rw [if_neg (not_not.mpr hcode), hdata]
    dsimp only
    rw [hdetail]
    exact hm
  · intro hc
    have hnil : m.chapters = [] := by
      rw [hch, hc]
      rfl
    exact ⟨hnil, by rw [hcount, hnil]; rfl⟩
  · intro ha
    rw [hau]
    exact hnone ha

end MangaRock
